import Mathlib

/-!
Shallow embedding of the projection-mapping engine: the `Canvas` widget of
`src/canvas.py` together with `Projection` (`src/projections.py`) and the
media-loading boundary of `VideoSource` (`src/video_source.py`).

Conventions of the embedding:
* Coordinates (`QPointF`) are rationals; Python floats are modelled by ℚ
  (the literal `0.1` of `_default_quad` becomes the exact `1/10`).
* Widget pixel dimensions (`self.width()`, `self.height()`) are fields of
  the state; Qt returns integers but all arithmetic on them is float
  arithmetic, so they are kept in ℚ as well.
* The external world (filesystem and OpenCV codecs) is a pair of oracles
  `fex : String → Bool` for `os.path.exists` and `loads : String → Bool`
  for whether `VideoSource.load` succeeds (raises no exception).
* Python lists are Lean lists; writing `xs[i] = v` is modelled by
  `listModify`, which is a no-op out of range (the claims under study only
  exercise in-range writes, where the two agree).
-/

/-- `QPointF`: a 2-D point with float (here: rational) coordinates. -/
structure Point where
  x : ℚ
  y : ℚ
deriving DecidableEq, Repr

/-- `QPointF.manhattanLength` of the difference of two points: |dx| + |dy|. -/
def manhattan (a b : Point) : ℚ :=
  |a.x - b.x| + |a.y - b.y|

/-- `Projection` (src/projections.py): one media path bound to one quad.
The live `VideoSource` handle is external state; its observable behaviour
(frames) is passed separately where a claim needs it. -/
structure Projection where
  path : String
  target_quad : List Point
deriving DecidableEq, Repr

/-- The hard-coded fallback quad of `Projection.__init__` (used when the
constructor argument `quad` is falsy). -/
def hardcodedQuad : List Point :=
  [⟨200, 150⟩, ⟨800, 150⟩, ⟨800, 550⟩, ⟨200, 550⟩]

/-- `Projection(path, quad)`: `media.load(path)` raises on failure (no object
is produced); otherwise `target_quad = quad or [default 4 points]`
(Python truthiness: an empty list falls back to the hard-coded quad). -/
def mkProjection (loads : String → Bool) (path : String) (quad : List Point) :
    Option Projection :=
  if loads path then
    some ⟨path, if quad.isEmpty then hardcodedQuad else quad⟩
  else
    none

/-- In-place update `xs[i] = f xs[i]` of a Python list (no-op out of range;
Python would raise IndexError there — the claims only use in-range writes). -/
def listModify {α : Type} (l : List α) (i : Nat) (f : α → α) : List α :=
  match l, i with
  | [], _ => []
  | a :: rest, 0 => f a :: rest
  | a :: rest, n + 1 => a :: listModify rest n f

/-- The mutable state of the `Canvas` widget (src/canvas.py `__init__`). -/
structure Canvas where
  projections : List Projection
  selected_idx : Int
  live_warp : Bool
  show_mesh : Bool
  drag_idx : Int
  handle_radius : ℚ
  width : ℚ
  height : ℚ
deriving DecidableEq, Repr

/-- `Canvas._default_quad`: quad inset from the widget edges by
`margin = min(max(1,w), max(1,h)) * 0.1`. -/
def Canvas.default_quad (c : Canvas) : List Point :=
  let w := max 1 c.width
  let h := max 1 c.height
  let margin := min w h / 10
  [⟨margin, margin⟩, ⟨w - margin, margin⟩, ⟨w - margin, h - margin⟩,
   ⟨margin, h - margin⟩]

/-- `Canvas.reset_quad`: reset the currently selected quad; if the selection
is not a valid index, reset all quads. -/
def Canvas.reset_quad (c : Canvas) : Canvas :=
  if 0 ≤ c.selected_idx ∧ c.selected_idx < (c.projections.length : Int) then
    { c with
      projections := listModify c.projections c.selected_idx.toNat
        (fun p => { p with target_quad := c.default_quad }) }
  else
    { c with
      projections := c.projections.map
        (fun p => { p with target_quad := c.default_quad }) }

/-- The `for i, path in enumerate(paths)` loop body of `Canvas.add_media`:
builds the staggered quad, tries the `Projection` constructor, appends on
success and records a `[WARN]` message (here: the failing path) on failure.
`start` is `len(self.projections) * offset_step` computed before the loop. -/
def addLoop (loads : String → Bool) (base : List Point) (start : ℚ) :
    Nat → List String → List Projection × List String
  | _, [] => ([], [])
  | i, path :: rest =>
    let quad := base.map
      (fun q => Point.mk (q.x + start + (i : ℚ) * 10) (q.y + start + (i : ℚ) * 10))
    let tail := addLoop loads base start (i + 1) rest
    match mkProjection loads path quad with
    | some proj => (proj :: tail.1, tail.2)
    | none => (tail.1, path :: tail.2)

/-- `Canvas.add_media(paths)`: early return on an empty batch; otherwise run
the staggered-add loop and, if projections exist and nothing was selected,
select index 0. Returns the new state and the per-item failure reports. -/
def Canvas.add_media (loads : String → Bool) (c : Canvas) (paths : List String) :
    Canvas × List String :=
  if paths.isEmpty then (c, [])
  else
    let base := c.default_quad
    let start : ℚ := (c.projections.length : ℚ) * 40
    let r := addLoop loads base start 0 paths
    let projs := c.projections ++ r.1
    let sel := if ¬projs.isEmpty ∧ c.selected_idx = -1 then 0 else c.selected_idx
    ({ c with projections := projs, selected_idx := sel }, r.2)

/-- Inner loop of `Canvas._hit_handle` over one quad: index of the first
point whose Manhattan distance to the cursor is within `tol`. -/
def hitInQuad (pos : Point) (tol : ℚ) : List Point → Option Nat
  | [] => none
  | pt :: rest =>
    if manhattan pos pt ≤ tol then some 0
    else (hitInQuad pos tol rest).map (· + 1)

/-- Outer loop of `Canvas._hit_handle` over the projections list, scanned
from index 0 (the bottom of the z-order) upward. -/
def hitInProjs (pos : Point) (tol : ℚ) : List Projection → Option (Nat × Nat)
  | [] => none
  | p :: rest =>
    match hitInQuad pos tol p.target_quad with
    | some i => some (0, i)
    | none => (hitInProjs pos tol rest).map (fun pr => (pr.1 + 1, pr.2))

/-- `Canvas._hit_handle(pos)`: `(proj_idx, handle_idx)` of the first handle
under the cursor (tolerance `handle_radius * 1.5`), else `(-1, -1)`. -/
def Canvas.hit_handle (c : Canvas) (pos : Point) : Int × Int :=
  match hitInProjs pos (c.handle_radius * (3 / 2)) c.projections with
  | some pr => ((pr.1 : Int), (pr.2 : Int))
  | none => (-1, -1)

/-- Mouse button identity carried by a Qt mouse event. -/
inductive MouseButton
  | left
  | right
  | middle
deriving DecidableEq, Repr

/-- `self.projections.append(self.projections.pop(pidx))`: move the element
at `pidx` to the end of the list (no-op out of range). -/
def bringToTop (l : List Projection) (i : Nat) : List Projection :=
  match l[i]? with
  | some p => l.eraseIdx i ++ [p]
  | none => l

/-- `Canvas.mousePressEvent`: on a left press whose hit-test succeeds,
select the struck projection, start dragging the struck handle, and raise
the struck projection to the top of the z-order (selection then tracks it
to the last index). Any other press leaves the state unchanged (it is
passed to the superclass). -/
def Canvas.mousePressEvent (c : Canvas) (button : MouseButton) (pos : Point) :
    Canvas :=
  if button = MouseButton.left then
    let hit := c.hit_handle pos
    if hit.1 ≠ -1 then
      let c1 := { c with selected_idx := hit.1, drag_idx := hit.2 }
      if 0 ≤ hit.1 ∧ hit.1 < (c1.projections.length : Int) then
        { c1 with
          projections := bringToTop c1.projections hit.1.toNat,
          selected_idx := (c1.projections.length : Int) - 1 }
      else c1
    else c
  else c

/-- `Canvas.mouseMoveEvent`: while a drag is active and the selection is a
valid index, clamp the pointer to `[0,width] × [0,height]` and write the
clamped point into `target_quad[drag_idx]` of the selected projection. -/
def Canvas.mouseMoveEvent (c : Canvas) (pos : Point) : Canvas :=
  if 0 ≤ c.drag_idx ∧ 0 ≤ c.selected_idx ∧
      c.selected_idx < (c.projections.length : Int) then
    let x := max 0 (min c.width pos.x)
    let y := max 0 (min c.height pos.y)
    { c with
      projections := listModify c.projections c.selected_idx.toNat
        (fun p => { p with
          target_quad := listModify p.target_quad c.drag_idx.toNat
            (fun _ => ⟨x, y⟩) }) }
  else c

/-- `Canvas.mouseReleaseEvent`: `drag_idx` is cleared only when the released
button is the left one; the event's position is ignored. -/
def Canvas.mouseReleaseEvent (c : Canvas) (button : MouseButton)
    (pos : Point) : Canvas :=
  if button = MouseButton.left then { c with drag_idx := -1 } else c

/-- One entry of the serialized `projections` array; `Option` marks fields a
hand-written document may omit (`dict.get` returning `None`). -/
structure ProjItem where
  media_path : Option String
  target_quad : Option (List (ℚ × ℚ))
deriving DecidableEq, Repr

/-- The preset document: the dictionary fields `Canvas.serialize` writes and
`Canvas.deserialize` reads, including the legacy top-level pair. -/
structure Doc where
  live_warp : Option Bool
  show_mesh : Option Bool
  projections : Option (List ProjItem)
  media_path : Option String
  target_quad : Option (List (ℚ × ℚ))
deriving DecidableEq, Repr

/-- The per-projection dictionary `Canvas.serialize` writes: the media path
and the quad as a list of `[x, y]` pairs. -/
def serializeItem (p : Projection) : ProjItem :=
  { media_path := some p.path
    target_quad := some (p.target_quad.map (fun pt => (pt.x, pt.y))) }

/-- `Canvas.serialize`: the two flags plus one item per projection; the
legacy top-level keys are never written. -/
def Canvas.serialize (c : Canvas) : Doc :=
  { live_warp := some c.live_warp
    show_mesh := some c.show_mesh
    projections := some (c.projections.map serializeItem)
    media_path := none
    target_quad := none }

/-- Python falsiness of `data.get("projections")`: `None` or `[]`. This is
the `if not projections:` test of `Canvas.deserialize`. -/
def isFalsyList : Option (List ProjItem) → Bool
  | none => true
  | some [] => true
  | some (_ :: _) => false

/-- The legacy (single-media) branch of `Canvas.deserialize`: when
`media_path` is truthy, parse the top-level `target_quad` if truthy, else
use the canvas default quad; append the one projection if its media loads.
Note: this branch never checks that `target_quad` has 4 points, and never
consults `os.path.exists`. -/
def legacyLoad (loads : String → Bool) (defq : List Point)
    (mp : Option String) (tq : Option (List (ℚ × ℚ))) : List Projection :=
  match mp with
  | none => []
  | some s =>
    if s = "" then []
    else
      let quad :=
        match tq with
        | none => defq
        | some l =>
          if l.isEmpty then defq else l.map (fun pr => Point.mk pr.1 pr.2)
      match mkProjection loads s quad with
      | some proj => [proj]
      | none => []

/-- The per-item loop of the multi-projection branch of
`Canvas.deserialize`: a wrong-length `target_quad` falls back to the
default quad; an item is loaded only if its `media_path` is truthy, the
path exists, and the media loads. -/
def deserItems (fex loads : String → Bool) (defq : List Point) :
    List ProjItem → List Projection
  | [] => []
  | item :: rest =>
    let tail := deserItems fex loads defq rest
    let tq := item.target_quad.getD []
    let quad :=
      if tq.length = 4 then tq.map (fun pr => Point.mk pr.1 pr.2) else defq
    match item.media_path with
    | none => tail
    | some mp =>
      if mp = "" then tail
      else if fex mp then
        match mkProjection loads mp quad with
        | some proj => proj :: tail
        | none => tail
      else tail

/-- `Canvas.deserialize(data)`: read the flags with their defaults, rebuild
the projections list (legacy branch when `projections` is absent or empty),
and select index 0 if anything loaded, else -1. -/
def Canvas.deserialize (fex loads : String → Bool) (c : Canvas) (d : Doc) :
    Canvas :=
  let projs :=
    if isFalsyList d.projections then
      legacyLoad loads c.default_quad d.media_path d.target_quad
    else
      deserItems fex loads c.default_quad (d.projections.getD [])
  { c with
    live_warp := d.live_warp.getD true
    show_mesh := d.show_mesh.getD true
    projections := projs
    selected_idx := if projs.isEmpty then -1 else 0 }

/-- One draw performed by `Canvas.paintEvent` for one projection: either the
homography warp (live mode) or the bounding-box scale (non-live mode), in
both cases clipped to the projection's quad. -/
inductive DrawOp
  | warped (idx : Nat) (quad : List Point)
  | scaled (idx : Nat) (quad : List Point)
deriving DecidableEq, Repr

/-- The per-projection loop of `Canvas.paintEvent`: a projection whose media
yields no frame (`get_frame() is None`) is skipped with `continue`;
otherwise the branch on `live_warp` is taken unconditionally — the
destination quad's geometry is never inspected before warping. -/
def paintLoop (lw : Bool) (frames : Nat → Option Unit) :
    Nat → List Projection → List DrawOp
  | _, [] => []
  | i, p :: rest =>
    let tail := paintLoop lw frames (i + 1) rest
    match frames i with
    | none => tail
    | some _ =>
      (if lw then DrawOp.warped i p.target_quad
       else DrawOp.scaled i p.target_quad) :: tail

/-- The composite pass of `Canvas.paintEvent` for one tick, abstracted to
the sequence of per-projection draws (the early return on an empty
projections list draws nothing). `frames i` is what `get_frame()` of
projection `i`'s media returns this tick. -/
def Canvas.paintOps (c : Canvas) (frames : Nat → Option Unit) : List DrawOp :=
  if c.projections.isEmpty then [] else paintLoop c.live_warp frames 0 c.projections

/-- Three points are collinear: the cross product of the two difference
vectors vanishes (the degeneracy condition of §4.1 of the spec). -/
def collinear3 (a b c : Point) : Prop :=
  (b.x - a.x) * (c.y - a.y) = (c.x - a.x) * (b.y - a.y)

instance (a b c : Point) : Decidable (collinear3 a b c) := by
  unfold collinear3
  infer_instance


/-! ### Concrete states and documents used in counterexamples and witnesses -/

def pathA : String := "a.png"

def pathB : String := "b.png"

def pathM : String := "m.png"

/-- Oracle for a world where every path exists and every media loads. -/
def allTrue : String → Bool := fun _ => true

def q0 : List Point := [⟨100, 100⟩, ⟨300, 100⟩, ⟨300, 300⟩, ⟨100, 300⟩]

/-- The state right after `Canvas.__init__` on a 600×400 widget. -/
def cBase : Canvas :=
  { projections := []
    selected_idx := -1
    live_warp := true
    show_mesh := true
    drag_idx := -1
    handle_radius := 10
    width := 600
    height := 400 }

/-- A two-projection 600×400 canvas with no valid selection. -/
def cEx8 : Canvas :=
  { cBase with projections := [⟨pathA, q0⟩, ⟨pathB, q0⟩], selected_idx := -1 }

/-- A canvas with an active drag of handle 2. -/
def cEx5 : Canvas :=
  { cBase with projections := [⟨pathA, q0⟩], selected_idx := 0, drag_idx := 2 }

/-- A two-projection canvas: a degenerate (fully collinear) quad at the
bottom of the z-order and an ordinary quad above it. -/
def qDegen : List Point := [⟨0, 0⟩, ⟨1, 1⟩, ⟨2, 2⟩, ⟨3, 3⟩]

def cEx4 : Canvas :=
  { cBase with projections := [⟨pathA, qDegen⟩, ⟨pathB, q0⟩], selected_idx := 0 }

/-- A two-projection canvas dragging handle 2 of the selected projection 0. -/
def cEx6 : Canvas :=
  { cBase with
    projections := [⟨pathA, q0⟩, ⟨pathB, q0⟩], selected_idx := 0, drag_idx := 2 }

/-- Two projections whose quads coincide: every handle of the bottom one is
exactly under the same handle of the top one. -/
def cEx1 : Canvas :=
  { cBase with projections := [⟨pathA, q0⟩, ⟨pathB, q0⟩], selected_idx := 0 }

/-- A legacy preset whose top-level `target_quad` has only 3 points. -/
def docLegacy3 : Doc :=
  { live_warp := none
    show_mesh := none
    projections := none
    media_path := some pathM
    target_quad := some [(0, 0), (1, 1), (2, 2)] }

/-- An empty preset document. -/
def docEmpty : Doc :=
  { live_warp := none
    show_mesh := none
    projections := none
    media_path := none
    target_quad := none }

/-- A legacy preset with a loadable media path and no quad. -/
def docOne : Doc :=
  { live_warp := some false
    show_mesh := none
    projections := none
    media_path := some pathM
    target_quad := none }

/-- A one-projection state with non-default flags. -/
def cEx3 : Canvas :=
  { cBase with
    projections := [⟨pathA, q0⟩], selected_idx := 0, live_warp := false }

/-- A legacy preset carrying a loadable media path and an explicit quad. -/
def docLegacyQ : Doc :=
  { live_warp := some false
    show_mesh := some false
    projections := some []
    media_path := some pathM
    target_quad := some [(1, 2), (3, 4), (5, 6), (7, 8)] }

/-! ### Helper lemmas about `listModify` -/

theorem listModify_length {α : Type} (f : α → α) :
    ∀ (l : List α) (i : Nat), (listModify l i f).length = l.length := by
  intro l
  induction l with
  | nil => intro i; cases i <;> simp [listModify]
  | cons a rest ih =>
    intro i
    cases i with
    | zero => simp [listModify]
    | succ n => simp [listModify, ih]

theorem listModify_getElem_self {α : Type} (f : α → α) :
    ∀ (l : List α) (i : Nat), (listModify l i f)[i]? = (l[i]?).map f := by
  intro l
  induction l with
  | nil => intro i; cases i <;> simp [listModify]
  | cons a rest ih =>
    intro i
    cases i with
    | zero => simp [listModify]
    | succ n => simp [listModify, ih]

theorem listModify_getElem_other {α : Type} (f : α → α) :
    ∀ (l : List α) (i j : Nat), j ≠ i → (listModify l i f)[j]? = l[j]? := by
  intro l
  induction l with
  | nil => intro i j _; cases j <;> simp [listModify]
  | cons a rest ih =>
    intro i j hne
    cases i with
    | zero =>
      cases j with
      | zero => exact absurd rfl hne
      | succ m => simp [listModify]
    | succ n =>
      cases j with
      | zero => simp [listModify]
      | succ m =>
        simp only [listModify, List.getElem?_cons_succ]
        exact ih n m (fun h => hne (by omega))

/-! ### C8: reset_quad installs the 10%-inset default rectangle -/

/-- C8: for a canvas with width ≥ 1 and height ≥ 1, the default quad is the
rectangle inset by `margin = min(w,h)/10`, with corners
`(m,m), (w-m,m), (w-m,h-m), (m,h-m)`; `reset_quad` installs exactly this
quad into every projection when no valid selection exists, and into the
selected projection only when one does, leaving paths untouched. -/
theorem C8_reset_quad_default (c : Canvas) (hw : 1 ≤ c.width) (hh : 1 ≤ c.height) :
    c.default_quad =
      [⟨min c.width c.height / 10, min c.width c.height / 10⟩,
       ⟨c.width - min c.width c.height / 10, min c.width c.height / 10⟩,
       ⟨c.width - min c.width c.height / 10, c.height - min c.width c.height / 10⟩,
       ⟨min c.width c.height / 10, c.height - min c.width c.height / 10⟩] ∧
    (¬(0 ≤ c.selected_idx ∧ c.selected_idx < (c.projections.length : Int)) →
      c.reset_quad.projections.map Projection.target_quad =
        c.projections.map (fun _ => c.default_quad) ∧
      c.reset_quad.projections.map Projection.path =
        c.projections.map Projection.path) ∧
    ((0 ≤ c.selected_idx ∧ c.selected_idx < (c.projections.length : Int)) →
      ∀ p, c.projections[c.selected_idx.toNat]? = some p →
        c.reset_quad.projections[c.selected_idx.toNat]? =
          some { p with target_quad := c.default_quad } ∧
        ∀ j, j ≠ c.selected_idx.toNat →
          c.reset_quad.projections[j]? = c.projections[j]?) := by
  refine ⟨?_, ?_, ?_⟩
  · simp [Canvas.default_quad, max_eq_right hw, max_eq_right hh]
  · intro hsel
    simp [Canvas.reset_quad, hsel, List.map_map, Function.comp_def]
  · intro hsel p hp
    constructor
    · simp [Canvas.reset_quad, hsel, listModify_getElem_self, hp]
    · intro j hj
      simp [Canvas.reset_quad, hsel, listModify_getElem_other _ _ _ _ hj]

/-- Witness for C8 at the spec's concrete scenario: a 600×400 canvas, reset
with no selection, puts every corner at margin `min(600,400)/10 = 40`. -/
theorem C8_witness :
    cEx8.reset_quad.projections.map Projection.target_quad =
      [[⟨40, 40⟩, ⟨560, 40⟩, ⟨560, 360⟩, ⟨40, 360⟩],
       [⟨40, 40⟩, ⟨560, 40⟩, ⟨560, 360⟩, ⟨40, 360⟩]] := by
  have h := (C8_reset_quad_default cEx8 (by norm_num [cEx8, cBase])
    (by norm_num [cEx8, cBase])).2.1 (by decide)
  refine h.1.trans ?_
  norm_num [cEx8, cBase, Canvas.default_quad, min_def, max_def]

/-! ### C5: release clears the drag target only for the left button -/

/-- C5 counterexample: a right-button release during an active drag leaves
`drag_idx` untouched, so not every pointer-release event clears the drag
target. -/
theorem C5_counterexample :
    (cEx5.mouseReleaseEvent MouseButton.right ⟨50, 50⟩).drag_idx = 2 ∧
    ¬((2 : Int) = -1) := by decide

/-- C5 amended: a left-button release clears `drag_idx` unconditionally
(whatever the drag state and pointer position), while a release of any
other button leaves the whole state unchanged. -/
theorem C5_release_clears_drag (c : Canvas) (pos : Point) :
    (c.mouseReleaseEvent MouseButton.left pos).drag_idx = -1 ∧
    ∀ b : MouseButton, b ≠ MouseButton.left → c.mouseReleaseEvent b pos = c := by
  constructor
  · simp [Canvas.mouseReleaseEvent]
  · intro b hb
    simp [Canvas.mouseReleaseEvent, hb]

/-- Witness for C5 at a concrete dragging state. -/
theorem C5_witness :
    (cEx5.mouseReleaseEvent MouseButton.left ⟨50, 50⟩).drag_idx = -1 ∧
    cEx5.mouseReleaseEvent MouseButton.right ⟨50, 50⟩ = cEx5 :=
  ⟨(C5_release_clears_drag cEx5 ⟨50, 50⟩).1,
   (C5_release_clears_drag cEx5 ⟨50, 50⟩).2 MouseButton.right (by decide)⟩

/-! ### C2: the legacy deserialize branch can install a 3-point quad -/

/-- C2 failing input: deserializing a legacy preset with a 3-point top-level
`target_quad` (media loadable) installs a projection whose quad has 3
points, violating the exactly-4-points invariant — the legacy branch lacks
the `len(tq) == 4` check that the multi-projection branch performs. -/
theorem C2_bug_three_point_quad :
    ((Canvas.deserialize allTrue allTrue cBase docLegacy3).projections.map
      (fun p => p.target_quad.length)) = [3] ∧ ¬((3 : Nat) = 4) := by decide

/-! ### C10: selection after load, and selection never persisted -/

/-- C10: after any `deserialize` the selection is 0 when at least one
projection loaded and -1 when none did, independent of the previous
selection; and `serialize` does not depend on the selection at all, so a
round trip can never restore it. -/
theorem C10_selection_after_load (fex loads : String → Bool) (c : Canvas)
    (d : Doc) (s : Int) :
    ((Canvas.deserialize fex loads c d).projections = [] →
      (Canvas.deserialize fex loads c d).selected_idx = -1) ∧
    ((Canvas.deserialize fex loads c d).projections ≠ [] →
      (Canvas.deserialize fex loads c d).selected_idx = 0) ∧
    Canvas.serialize { c with selected_idx := s } = Canvas.serialize c ∧
    (Canvas.deserialize fex loads { c with selected_idx := s } d).selected_idx =
      (Canvas.deserialize fex loads c d).selected_idx := by
  have hsel : (Canvas.deserialize fex loads c d).selected_idx =
      if (Canvas.deserialize fex loads c d).projections.isEmpty then -1 else 0 := rfl
  refine ⟨?_, ?_, rfl, rfl⟩
  · intro h
    rw [hsel, if_pos]
    simp [h]
  · intro h
    rw [hsel, if_neg]
    simp [h]

/-- Witness for C10: loading an empty document selects -1; loading a
document yielding one projection selects 0. -/
theorem C10_witness :
    (Canvas.deserialize allTrue allTrue cBase docEmpty).selected_idx = -1 ∧
    (Canvas.deserialize allTrue allTrue cBase docOne).selected_idx = 0 :=
  ⟨(C10_selection_after_load allTrue allTrue cBase docEmpty 7).1 (by decide),
   (C10_selection_after_load allTrue allTrue cBase docOne 7).2.1 (by
      simp [Canvas.deserialize, legacyLoad, mkProjection, allTrue, docOne, pathM,
        isFalsyList, Canvas.default_quad])⟩

/-! ### C4: paintEvent performs no degeneracy detection -/

/-- C4 counterexample: the bottom projection's quad has three (indeed four)
collinear points, both media yield frames, live warp is on — yet the
composite pass still emits the warp for the degenerate quad instead of
detecting the condition and skipping that projection. -/
theorem C4_counterexample :
    collinear3 ⟨0, 0⟩ ⟨1, 1⟩ ⟨2, 2⟩ ∧
    cEx4.paintOps (fun _ => some ()) =
      [DrawOp.warped 0 qDegen, DrawOp.warped 1 q0] := by
  refine ⟨by norm_num [collinear3], rfl⟩

/-- The draw emitted by `paintEvent` for the projection at offset `n + i`
is in the output whenever that projection's media yields a frame; the
quad's geometry is never consulted. -/
theorem paintLoop_mem (lw : Bool) (frames : Nat → Option Unit) :
    ∀ (l : List Projection) (n i : Nat) (p : Projection),
      l[i]? = some p → frames (n + i) = some () →
      (if lw then DrawOp.warped (n + i) p.target_quad
       else DrawOp.scaled (n + i) p.target_quad) ∈ paintLoop lw frames n l := by
  intro l
  induction l with
  | nil => intro n i p hp _; simp at hp
  | cons a rest ih =>
    intro n i p hp hf
    cases i with
    | zero =>
      rw [List.getElem?_cons_zero, Option.some_inj] at hp
      rw [Nat.add_zero] at hf ⊢
      subst hp
      simp [paintLoop, hf]
    | succ m =>
      have hp2 : rest[m]? = some p := by simpa using hp
      have hf2 : frames (n + 1 + m) = some () := by
        rw [show n + 1 + m = n + (m + 1) by omega]
        exact hf
      have hmem := ih (n + 1) m p hp2 hf2
      rw [show n + 1 + m = n + (m + 1) by omega] at hmem
      cases hfn : frames n with
      | none => simpa [paintLoop, hfn] using hmem
      | some u =>
        simp only [paintLoop, hfn]
        exact List.mem_cons_of_mem _ hmem

/-- C4 amended: the composite pass never detects degeneracy — every
projection whose media yields a frame is drawn (warped in live mode, scaled
otherwise) whatever its quad's geometry, including quads with 3+ collinear
points; a projection is left out of the pass only when its media yields no
frame, and the remaining layers are still drawn. -/
theorem C4_no_degeneracy_detection (c : Canvas) (frames : Nat → Option Unit)
    (i : Nat) (p : Projection) (hp : c.projections[i]? = some p)
    (hf : frames i = some ()) :
    (if c.live_warp then DrawOp.warped i p.target_quad
     else DrawOp.scaled i p.target_quad) ∈ c.paintOps frames := by
  have hne : ¬c.projections.isEmpty = true := by
    intro h
    rw [List.isEmpty_iff] at h
    rw [h] at hp
    simp at hp
  unfold Canvas.paintOps
  rw [if_neg hne]
  have h := paintLoop_mem c.live_warp frames c.projections 0 i p hp
    (by simpa using hf)
  simpa using h

/-- Witness for C4 at the degenerate concrete state. -/
theorem C4_witness :
    (if cEx4.live_warp then DrawOp.warped 0 (Projection.mk pathA qDegen).target_quad
     else DrawOp.scaled 0 (Projection.mk pathA qDegen).target_quad) ∈
      cEx4.paintOps (fun _ => some ()) :=
  C4_no_degeneracy_detection cEx4 (fun _ => some ()) 0 ⟨pathA, qDegen⟩ rfl rfl

/-! ### C6: a drag move writes exactly one clamped coordinate -/

/-- C6: during an active drag with a valid selection, a move event clamps
the pointer componentwise to `[0,width] × [0,height]` and writes the
clamped point into handle `drag_idx` of the selected projection only: the
list length, every other projection, the selected projection's path, and
every other handle of its quad are unchanged. -/
theorem C6_move_writes_one_handle (c : Canvas) (pos : Point) (p : Projection)
    (hd : 0 ≤ c.drag_idx) (hs : 0 ≤ c.selected_idx)
    (hlen : c.selected_idx < (c.projections.length : Int))
    (hp : c.projections[c.selected_idx.toNat]? = some p)
    (hq : c.drag_idx.toNat < p.target_quad.length) :
    (c.mouseMoveEvent pos).projections.length = c.projections.length ∧
    (∀ j, j ≠ c.selected_idx.toNat →
      (c.mouseMoveEvent pos).projections[j]? = c.projections[j]?) ∧
    (c.mouseMoveEvent pos).projections[c.selected_idx.toNat]? = some
      { p with target_quad := (listModify p.target_quad c.drag_idx.toNat
          (fun _ => ⟨max 0 (min c.width pos.x), max 0 (min c.height pos.y)⟩)) } ∧
    (listModify p.target_quad c.drag_idx.toNat
        (fun _ => ⟨max 0 (min c.width pos.x), max 0 (min c.height pos.y)⟩))[c.drag_idx.toNat]? =
      some ⟨max 0 (min c.width pos.x), max 0 (min c.height pos.y)⟩ ∧
    (∀ k, k ≠ c.drag_idx.toNat →
      (listModify p.target_quad c.drag_idx.toNat
        (fun _ => ⟨max 0 (min c.width pos.x), max 0 (min c.height pos.y)⟩))[k]? =
        p.target_quad[k]?) ∧
    (0 ≤ c.width → 0 ≤ c.height →
      0 ≤ max 0 (min c.width pos.x) ∧ max 0 (min c.width pos.x) ≤ c.width ∧
      0 ≤ max 0 (min c.height pos.y) ∧ max 0 (min c.height pos.y) ≤ c.height) := by
  have hcond : 0 ≤ c.drag_idx ∧ 0 ≤ c.selected_idx ∧
      c.selected_idx < (c.projections.length : Int) := ⟨hd, hs, hlen⟩
  refine ⟨?_, ?_, ?_, ?_, ?_, ?_⟩
  · simp [Canvas.mouseMoveEvent, hcond, listModify_length]
  · intro j hj
    simp [Canvas.mouseMoveEvent, hcond, listModify_getElem_other _ _ _ _ hj]
  · simp [Canvas.mouseMoveEvent, hcond, listModify_getElem_self, hp]
  · rw [listModify_getElem_self, List.getElem?_eq_getElem hq]
    rfl
  · intro k hk
    rw [listModify_getElem_other _ _ _ _ hk]
  · intro hw hh
    refine ⟨le_max_left _ _, max_le hw (min_le_left _ _),
      le_max_left _ _, max_le hh (min_le_left _ _)⟩

/-- Witness for C6: dragging handle 2 of projection 0 with the pointer at
(1000, -50) on a 600×400 canvas: the list keeps its length and projection 1
is untouched. -/
theorem C6_witness :
    (cEx6.mouseMoveEvent ⟨1000, -50⟩).projections.length = 2 ∧
    (cEx6.mouseMoveEvent ⟨1000, -50⟩).projections[1]? = cEx6.projections[1]? := by
  have h := C6_move_writes_one_handle cEx6 ⟨1000, -50⟩ ⟨pathA, q0⟩
    (by decide) (by decide) (by decide) rfl (by decide)
  exact ⟨h.1.trans (by decide), h.2.1 1 (by decide)⟩

/-! ### C1: hit-test scan order -/

/-- Soundness of the inner hit loop: a returned index points at a quad
point within tolerance. -/
theorem hitInQuad_sound (pos : Point) (tol : ℚ) :
    ∀ (q : List Point) (i : Nat), hitInQuad pos tol q = some i →
      ∃ pt, q[i]? = some pt ∧ manhattan pos pt ≤ tol := by
  intro q
  induction q with
  | nil => intro i h; simp [hitInQuad] at h
  | cons pt rest ih =>
    intro i h
    by_cases hd : manhattan pos pt ≤ tol
    · rw [hitInQuad, if_pos hd, Option.some_inj] at h
      exact ⟨pt, by rw [← h]; simp, hd⟩
    · rw [hitInQuad, if_neg hd, Option.map_eq_some'] at h
      obtain ⟨i2, hi2, hadd⟩ := h
      obtain ⟨pt2, hpt2, hd2⟩ := ih i2 hi2
      exact ⟨pt2, by rw [← hadd]; simpa using hpt2, hd2⟩

/-- The inner hit loop returns the first point within tolerance: every
earlier point misses. -/
theorem hitInQuad_first (pos : Point) (tol : ℚ) :
    ∀ (q : List Point) (i : Nat), hitInQuad pos tol q = some i →
      ∀ k, k < i → ∀ pt, q[k]? = some pt → ¬manhattan pos pt ≤ tol := by
  intro q
  induction q with
  | nil => intro i h; simp [hitInQuad] at h
  | cons pt rest ih =>
    intro i h k hk pt2 hpt2
    by_cases hd : manhattan pos pt ≤ tol
    · rw [hitInQuad, if_pos hd, Option.some_inj] at h
      omega
    · rw [hitInQuad, if_neg hd, Option.map_eq_some'] at h
      obtain ⟨i2, hi2, hadd⟩ := h
      cases k with
      | zero =>
        rw [List.getElem?_cons_zero, Option.some_inj] at hpt2
        rw [← hpt2]
        exact hd
      | succ m =>
        rw [List.getElem?_cons_succ] at hpt2
        exact ih i2 hi2 m (by omega) pt2 hpt2

/-- A quad on which the inner loop fails has no point within tolerance. -/
theorem hitInQuad_none (pos : Point) (tol : ℚ) :
    ∀ q : List Point, hitInQuad pos tol q = none →
      ∀ pt ∈ q, ¬manhattan pos pt ≤ tol := by
  intro q
  induction q with
  | nil => intro _ pt hpt; simp at hpt
  | cons pt rest ih =>
    intro h pt2 hpt2
    by_cases hd : manhattan pos pt ≤ tol
    · rw [hitInQuad, if_pos hd] at h
      exact absurd h (by simp)
    · rw [hitInQuad, if_neg hd] at h
      rcases List.mem_cons.1 hpt2 with he | hm
      · rw [he]; exact hd
      · exact ih (by simpa using h) pt2 hm

/-- Completeness of the inner hit loop: if some point is within tolerance,
the loop returns an index no later than it. -/
theorem hitInQuad_complete (pos : Point) (tol : ℚ) :
    ∀ (q : List Point) (j : Nat) (pt : Point), q[j]? = some pt →
      manhattan pos pt ≤ tol →
      ∃ i, hitInQuad pos tol q = some i ∧ i ≤ j := by
  intro q
  induction q with
  | nil => intro j pt hpt; simp at hpt
  | cons pt rest ih =>
    intro j pt2 hpt2 hd2
    by_cases hd : manhattan pos pt ≤ tol
    · exact ⟨0, by rw [hitInQuad, if_pos hd], Nat.zero_le _⟩
    · cases j with
      | zero =>
        rw [List.getElem?_cons_zero, Option.some_inj] at hpt2
        rw [hpt2] at hd
        exact absurd hd2 hd
      | succ m =>
        rw [List.getElem?_cons_succ] at hpt2
        obtain ⟨i, hi, hle⟩ := ih m pt2 hpt2 hd2
        exact ⟨i + 1, by rw [hitInQuad, if_neg hd, hi]; rfl, by omega⟩

/-- Soundness of the outer hit loop: the returned projection index points
at a projection on whose quad the inner loop succeeds. -/
theorem hitInProjs_sound (pos : Point) (tol : ℚ) :
    ∀ (l : List Projection) (pi hi : Nat),
      hitInProjs pos tol l = some (pi, hi) →
      ∃ p, l[pi]? = some p ∧ hitInQuad pos tol p.target_quad = some hi := by
  intro l
  induction l with
  | nil => intro pi hi h; simp [hitInProjs] at h
  | cons p rest ih =>
    intro pi hi h
    cases hq : hitInQuad pos tol p.target_quad with
    | some i =>
      rw [hitInProjs, hq, Option.some_inj] at h
      cases h
      exact ⟨p, by simp, hq⟩
    | none =>
      rw [hitInProjs, hq, Option.map_eq_some'] at h
      obtain ⟨pr, hpr, heq⟩ := h
      cases heq
      obtain ⟨p2, hp2, hq2⟩ := ih pr.1 pr.2 (by rw [Prod.mk.eta]; exact hpr)
      exact ⟨p2, by simpa using hp2, hq2⟩

/-- The outer hit loop returns the first projection with a hit: the quads
of all lower-indexed (bottom-of-z-order) projections miss entirely. -/
theorem hitInProjs_first (pos : Point) (tol : ℚ) :
    ∀ (l : List Projection) (pi hi : Nat),
      hitInProjs pos tol l = some (pi, hi) →
      ∀ m, m < pi → ∀ pm, l[m]? = some pm →
        hitInQuad pos tol pm.target_quad = none := by
  intro l
  induction l with
  | nil => intro pi hi h; simp [hitInProjs] at h
  | cons p rest ih =>
    intro pi hi h m hm pm hpm
    cases hq : hitInQuad pos tol p.target_quad with
    | some i =>
      rw [hitInProjs, hq, Option.some_inj] at h
      cases h
      omega
    | none =>
      rw [hitInProjs, hq, Option.map_eq_some'] at h
      obtain ⟨pr, hpr, heq⟩ := h
      cases heq
      cases m with
      | zero =>
        rw [List.getElem?_cons_zero, Option.some_inj] at hpm
        rw [← hpm]
        exact hq
      | succ m2 =>
        rw [List.getElem?_cons_succ] at hpm
        exact ih pr.1 pr.2 (by rw [Prod.mk.eta]; exact hpr) m2 (by omega) pm hpm

/-- Completeness of the outer hit loop: if any projection's quad has a hit,
the loop succeeds, at a projection index no later than it. -/
theorem hitInProjs_complete (pos : Point) (tol : ℚ) :
    ∀ (l : List Projection) (j : Nat) (pj : Projection) (hi0 : Nat),
      l[j]? = some pj → hitInQuad pos tol pj.target_quad = some hi0 →
      ∃ pi hi, hitInProjs pos tol l = some (pi, hi) ∧ pi ≤ j := by
  intro l
  induction l with
  | nil => intro j pj hi0 hpj; simp at hpj
  | cons p rest ih =>
    intro j pj hi0 hpj hq0
    cases hq : hitInQuad pos tol p.target_quad with
    | some i => exact ⟨0, i, by rw [hitInProjs, hq], Nat.zero_le _⟩
    | none =>
      cases j with
      | zero =>
        rw [List.getElem?_cons_zero, Option.some_inj] at hpj
        rw [hpj] at hq
        rw [hq] at hq0
        exact absurd hq0 (by simp)
      | succ m =>
        rw [List.getElem?_cons_succ] at hpj
        obtain ⟨pi, hi, hh, hle⟩ := ih m pj hi0 hpj hq0
        exact ⟨pi + 1, hi, by rw [hitInProjs, hq, hh]; rfl, by omega⟩

/-- C1 amended: `_hit_handle` scans the projections list from index 0 — the
BOTTOM of the z-order — upward, and returns the first handle within the
`handle_radius * 1.5` Manhattan tolerance. Whenever projection `j` has a
handle within tolerance, the returned projection index `pi` satisfies
`pi ≤ j` (so on ties the bottom-most projection wins, not the top-most),
the returned handle is the first in-tolerance point of that quad, and every
lower-indexed projection has no handle within tolerance. -/
theorem C1_hit_scans_bottom_first (c : Canvas) (pos : Point) (j k : Nat)
    (pj : Projection) (pt : Point)
    (hj : c.projections[j]? = some pj) (hk : pj.target_quad[k]? = some pt)
    (hnear : manhattan pos pt ≤ c.handle_radius * (3 / 2)) :
    ∃ pi hi : Nat, c.hit_handle pos = ((pi : Int), (hi : Int)) ∧ pi ≤ j ∧
      (∃ p pt2, c.projections[pi]? = some p ∧ p.target_quad[hi]? = some pt2 ∧
        manhattan pos pt2 ≤ c.handle_radius * (3 / 2) ∧
        ∀ k2, k2 < hi → ∀ pt3, p.target_quad[k2]? = some pt3 →
          ¬manhattan pos pt3 ≤ c.handle_radius * (3 / 2)) ∧
      (∀ m, m < pi → ∀ pm, c.projections[m]? = some pm →
        ∀ pt4 ∈ pm.target_quad,
          ¬manhattan pos pt4 ≤ c.handle_radius * (3 / 2)) := by
  obtain ⟨hi0, hq0, _⟩ :=
    hitInQuad_complete pos (c.handle_radius * (3 / 2)) pj.target_quad k pt hk hnear
  obtain ⟨pi, hi, hh, hle⟩ :=
    hitInProjs_complete pos (c.handle_radius * (3 / 2)) c.projections j pj hi0 hj hq0
  refine ⟨pi, hi, ?_, hle, ?_, ?_⟩
  · rw [Canvas.hit_handle, hh]
  · obtain ⟨p, hp, hq⟩ :=
      hitInProjs_sound pos (c.handle_radius * (3 / 2)) c.projections pi hi hh
    obtain ⟨pt2, hpt2, hd2⟩ :=
      hitInQuad_sound pos (c.handle_radius * (3 / 2)) p.target_quad hi hq
    exact ⟨p, pt2, hp, hpt2, hd2,
      hitInQuad_first pos (c.handle_radius * (3 / 2)) p.target_quad hi hq⟩
  · intro m hm pm hpm pt4 hpt4
    exact hitInQuad_none pos (c.handle_radius * (3 / 2)) pm.target_quad
      (hitInProjs_first pos (c.handle_radius * (3 / 2)) c.projections pi hi hh
        m hm pm hpm) pt4 hpt4

/-- C1 counterexample: two projections share the same quad, so at pointer
position (100,100) the handle 0 of BOTH projections is within tolerance;
the claim requires the top-most projection (index 1) to win, but
`_hit_handle` scans from the start of the list and returns projection
index 0, the bottom-most. -/
theorem C1_counterexample :
    cEx1.projections.map Projection.target_quad = [q0, q0] ∧
    manhattan ⟨100, 100⟩ ⟨100, 100⟩ ≤ cEx1.handle_radius * (3 / 2) ∧
    cEx1.hit_handle ⟨100, 100⟩ = (0, 0) ∧
    ¬(((0 : Int), (0 : Int)) = ((1 : Int), (0 : Int))) := by
  refine ⟨rfl, by norm_num [manhattan, cEx1, cBase], ?_, by decide⟩
  norm_num [Canvas.hit_handle, hitInProjs, hitInQuad, manhattan, cEx1, cBase, q0]

/-- Witness for C1 at the shared-quad state: projection 1 (the top-most)
has its handle 0 within tolerance of the pointer, and the hit-test resolves
to a projection index `pi ≤ 1` with all the stated first-match properties. -/
theorem C1_witness :
    manhattan ⟨100, 100⟩ ⟨100, 100⟩ ≤ cEx1.handle_radius * (3 / 2) ∧
    (∃ pi hi : Nat, cEx1.hit_handle ⟨100, 100⟩ = ((pi : Int), (hi : Int)) ∧
      pi ≤ 1 ∧
      (∃ p pt2, cEx1.projections[pi]? = some p ∧
        p.target_quad[hi]? = some pt2 ∧
        manhattan ⟨100, 100⟩ pt2 ≤ cEx1.handle_radius * (3 / 2) ∧
        ∀ k2, k2 < hi → ∀ pt3, p.target_quad[k2]? = some pt3 →
          ¬manhattan ⟨100, 100⟩ pt3 ≤ cEx1.handle_radius * (3 / 2)) ∧
      (∀ m, m < pi → ∀ pm, cEx1.projections[m]? = some pm →
        ∀ pt4 ∈ pm.target_quad,
          ¬manhattan ⟨100, 100⟩ pt4 ≤ cEx1.handle_radius * (3 / 2))) :=
  ⟨by norm_num [manhattan, cEx1, cBase],
   C1_hit_scans_bottom_first cEx1 ⟨100, 100⟩ 1 0 ⟨pathB, q0⟩ ⟨100, 100⟩
     rfl rfl (by norm_num [manhattan, cEx1, cBase])⟩

/-! ### C3: preset round trip -/

/-- Parsing back the serialized `[x, y]` pairs of a quad recovers the quad. -/
theorem quad_pairs_roundtrip :
    ∀ q : List Point,
      (q.map (fun pt => (pt.x, pt.y))).map (fun pr => Point.mk pr.1 pr.2) = q := by
  intro q
  induction q with
  | nil => rfl
  | cons pt rest ih =>
    cases pt
    simp [ih]

/-- Deserializing the items written by `serialize` recovers the original
projections, provided each projection's path is truthy, exists, loads, and
its quad has the invariant 4 points. -/
theorem deserItems_roundtrip (fex loads : String → Bool) (defq : List Point) :
    ∀ l : List Projection,
      (∀ p ∈ l, ¬p.path = "" ∧ fex p.path = true ∧ loads p.path = true ∧
        p.target_quad.length = 4) →
      deserItems fex loads defq (l.map serializeItem) = l := by
  intro l
  induction l with
  | nil => intro _; rfl
  | cons p rest ih =>
    intro h
    obtain ⟨hne, hfex, hloads, hlen⟩ := h p (List.mem_cons_self p rest)
    have hrest := fun p2 hp2 => h p2 (List.mem_cons_of_mem p hp2)
    have hq4 : ((p.target_quad.map (fun pt => (pt.x, pt.y))).length = 4) := by
      simpa using hlen
    have hqne : (p.target_quad.map (fun pt => (pt.x, pt.y))).map
        (fun pr => Point.mk pr.1 pr.2) = p.target_quad := quad_pairs_roundtrip _
    have hnonempty : p.target_quad.isEmpty = false := by
      cases hqq : p.target_quad with
      | nil => rw [hqq] at hlen; simp at hlen
      | cons a b => simp
    rw [List.map_cons, deserItems, serializeItem]
    simp only [Option.getD_some, hq4, if_pos rfl, hqne]
    rw [if_neg hne, if_pos hfex, mkProjection, if_pos hloads]
    simp [hnonempty, ih hrest]

/-- C3: for any state whose projections all have truthy, existing, loadable
media paths and 4-point quads, `deserialize (serialize state)` reproduces
the projections exactly (same count, order, paths and quad coordinates) and
both flags. -/
theorem C3_roundtrip (fex loads : String → Bool) (c : Canvas)
    (h : ∀ p ∈ c.projections, ¬p.path = "" ∧ fex p.path = true ∧
      loads p.path = true ∧ p.target_quad.length = 4) :
    (Canvas.deserialize fex loads c c.serialize).projections = c.projections ∧
    (Canvas.deserialize fex loads c c.serialize).live_warp = c.live_warp ∧
    (Canvas.deserialize fex loads c c.serialize).show_mesh = c.show_mesh := by
  refine ⟨?_, rfl, rfl⟩
  have hproj : (Canvas.deserialize fex loads c c.serialize).projections =
      if isFalsyList (some (c.projections.map serializeItem)) then
        legacyLoad loads c.default_quad none none
      else
        deserItems fex loads c.default_quad (c.projections.map serializeItem) := rfl
  rw [hproj]
  rcases hcp : c.projections with _ | ⟨p, rest⟩
  · simp [isFalsyList, legacyLoad]
  · rw [List.map_cons]
    rw [show isFalsyList (some (serializeItem p :: rest.map serializeItem)) = false
      from rfl]
    rw [if_neg (by simp)]
    rw [← List.map_cons]
    exact deserItems_roundtrip fex loads c.default_quad (p :: rest)
      (by rw [← hcp]; exact h)

/-- Witness for C3: a concrete one-projection state round-trips. -/
theorem C3_witness :
    (Canvas.deserialize allTrue allTrue cEx3 cEx3.serialize).projections =
      cEx3.projections ∧
    (Canvas.deserialize allTrue allTrue cEx3 cEx3.serialize).live_warp =
      cEx3.live_warp :=
  ⟨(C3_roundtrip allTrue allTrue cEx3 (by decide)).1,
   (C3_roundtrip allTrue allTrue cEx3 (by decide)).2.1⟩

/-! ### C7: per-item add with staggered offsets -/

/-- The add loop, started at index `n`, appends exactly the loadable paths
(in order, with their enumeration-index stagger) and reports exactly the
non-loadable ones. -/
theorem addLoop_spec (loads : String → Bool) (base : List Point) (start : ℚ)
    (hbase : base.isEmpty = false) :
    ∀ (paths : List String) (n : Nat),
      (addLoop loads base start n paths).1 =
        (List.enumFrom n paths).filterMap (fun pr =>
          if loads pr.2 then
            some ⟨pr.2, base.map (fun q =>
              Point.mk (q.x + start + (pr.1 : ℚ) * 10)
                (q.y + start + (pr.1 : ℚ) * 10))⟩
          else none) ∧
      (addLoop loads base start n paths).2 = paths.filter (fun s => !loads s) := by
  intro paths
  induction paths with
  | nil => intro n; exact ⟨rfl, rfl⟩
  | cons path rest ih =>
    intro n
    have hquadne : (base.map (fun q =>
        Point.mk (q.x + start + (n : ℚ) * 10)
          (q.y + start + (n : ℚ) * 10))).isEmpty = false := by
      cases base with
      | nil => simp at hbase
      | cons a b => simp
    constructor
    · cases hl : loads path with
      | true =>
        rw [addLoop, mkProjection, if_pos hl]
        simp only [List.enumFrom, List.filterMap, hl, if_pos rfl, hquadne,
          Bool.false_eq_true, if_false, (ih (n + 1)).1]
        simp
      | false =>
        rw [addLoop, mkProjection, if_neg (by simp [hl])]
        simp only [List.enumFrom, List.filterMap, hl, Bool.false_eq_true,
          if_false, (ih (n + 1)).1]
    · cases hl : loads path with
      | true =>
        rw [addLoop, mkProjection, if_pos hl]
        simp only [List.filter, hl, Bool.not_true, (ih (n + 1)).2]
      | false =>
        rw [addLoop, mkProjection, if_neg (by simp [hl])]
        simp only [List.filter, hl, Bool.not_false, (ih (n + 1)).2]

/-- C7: `add_media` appends, after the existing projections (i.e. at the
top of the z-order), exactly one projection per loadable path, in batch
order, each with its staggered quad (`default quad` shifted by
`len(projections)*40 + i*10` in both coordinates, `i` the batch index);
paths that fail to load contribute nothing to the registry and are exactly
the per-item reported failures, and the loop continues past them. -/
theorem C7_add_media_per_item (loads : String → Bool) (c : Canvas)
    (paths : List String) :
    (c.add_media loads paths).1.projections =
      c.projections ++ (List.enumFrom 0 paths).filterMap (fun pr =>
        if loads pr.2 then
          some ⟨pr.2, c.default_quad.map (fun q =>
            Point.mk (q.x + (c.projections.length : ℚ) * 40 + (pr.1 : ℚ) * 10)
              (q.y + (c.projections.length : ℚ) * 40 + (pr.1 : ℚ) * 10))⟩
        else none) ∧
    (c.add_media loads paths).2 = paths.filter (fun s => !loads s) := by
  cases paths with
  | nil => exact ⟨by simp [Canvas.add_media], by simp [Canvas.add_media]⟩
  | cons path rest =>
    have hne : (path :: rest).isEmpty = false := by simp
    have hs := addLoop_spec loads c.default_quad
      ((c.projections.length : ℚ) * 40) rfl (path :: rest) 0
    constructor
    · show c.projections ++ (addLoop loads c.default_quad
        ((c.projections.length : ℚ) * 40) 0 (path :: rest)).1 = _
      rw [hs.1]
    · show (addLoop loads c.default_quad
        ((c.projections.length : ℚ) * 40) 0 (path :: rest)).2 = _
      rw [hs.2]

/-! ### C9: legacy single-projection synthesis -/

/-- The default quad always has 4 points, hence is never empty. -/
theorem default_quad_isEmpty (c : Canvas) : c.default_quad.isEmpty = false := rfl

/-- C9: when the `projections` field is absent or empty (Python-falsy) but a
truthy top-level `media_path` is present and its media loads, `deserialize`
synthesizes exactly one projection from the top-level fields: with the
parsed top-level `target_quad` when one is present (and non-empty), and
with the canvas default quad when `target_quad` is absent. -/
theorem C9_legacy_synthesis (fex loads : String → Bool) (c : Canvas) (d : Doc)
    (mp : String)
    (hproj : isFalsyList d.projections = true)
    (hmp : d.media_path = some mp) (hne : ¬mp = "") (hl : loads mp = true) :
    (d.target_quad = none →
      (Canvas.deserialize fex loads c d).projections = [⟨mp, c.default_quad⟩]) ∧
    (∀ tq, d.target_quad = some tq → tq.isEmpty = false →
      (Canvas.deserialize fex loads c d).projections =
        [⟨mp, tq.map (fun pr => Point.mk pr.1 pr.2)⟩]) := by
  have hproj2 : (Canvas.deserialize fex loads c d).projections =
      if isFalsyList d.projections then
        legacyLoad loads c.default_quad d.media_path d.target_quad
      else
        deserItems fex loads c.default_quad (d.projections.getD []) := rfl
  rw [hproj2, if_pos hproj, hmp]
  constructor
  · intro htq
    rw [htq]
    simp [legacyLoad, mkProjection, hne, hl, default_quad_isEmpty c]
  · intro tq htq hne2
    have hne3 : (tq.map (fun pr => Point.mk pr.1 pr.2)).isEmpty = false := by
      cases tq with
      | nil => simp at hne2
      | cons a b => simp
    rw [htq]
    simp [legacyLoad, mkProjection, hne, hl, hne2, hne3]

/-- Witness for C9: a legacy document without a quad gets the default quad;
one with an explicit quad gets exactly that quad. -/
theorem C9_witness :
    (Canvas.deserialize allTrue allTrue cBase docOne).projections =
      [⟨pathM, cBase.default_quad⟩] ∧
    (Canvas.deserialize allTrue allTrue cBase docLegacyQ).projections =
      [⟨pathM, [⟨1, 2⟩, ⟨3, 4⟩, ⟨5, 6⟩, ⟨7, 8⟩]⟩] := by
  refine ⟨(C9_legacy_synthesis allTrue allTrue cBase docOne pathM rfl rfl
      (by decide) rfl).1 rfl, ?_⟩
  have h := (C9_legacy_synthesis allTrue allTrue cBase docLegacyQ pathM rfl rfl
      (by decide) rfl).2 [(1, 2), (3, 4), (5, 6), (7, 8)] rfl rfl
  rw [h]
  rfl
